import Mathlib

/-!
# Verification of the MazeFinder genetic-algorithm core

Shallow embedding of `src/MazeFinder.cpp` (brettadams0/MazeFinder-GeneticAlgorithm).
Positions are `Int` (the C++ code uses `int`), the maze is a list of rows of
`Int` cell values (`std::vector<std::vector<int>>`, cell value 1 = WALL), a
genome is a list of `Direction`.  The grid dimension `N` (the C++ global
constant `MAZE_SIZE`) is kept as a parameter; the program instantiates it
with 20.  Randomness in the C++ operators (`crossover`'s split point,
`mutate`'s locus and replacement move) is embedded by passing the sampled
values as explicit arguments.
-/

/-- The `Direction` enum of the source: `{UP, DOWN, LEFT, RIGHT, STAND}`. -/
inductive Direction where
  | UP
  | DOWN
  | LEFT
  | RIGHT
  | STAND
deriving DecidableEq, Repr

/-- `using Genome = std::vector<Direction>`. -/
abbrev Genome := List Direction

/-- `using Maze = std::vector<std::vector<int>>`. -/
abbrev Maze := List (List Int)

/-- `const int MAZE_SIZE = 20`. -/
def MAZE_SIZE : Int := 20

/-- `const int POPULATION_SIZE = 100`. -/
def POPULATION_SIZE : Nat := 100

/-- `const int GENERATIONS = 1000`. -/
def GENERATIONS : Nat := 1000

/-- `const int THREAD_COUNT = 4`. -/
def THREAD_COUNT : Nat := 4

/-- `const int GENOME_LENGTH = 100`. -/
def GENOME_LENGTH : Nat := 100

/-- The maze access `maze[y][x]` of the source (row-major, y first). -/
def cellAt (maze : Maze) (y x : Int) : Int :=
  (maze.getD y.toNat []).getD x.toNat 0

/-- One iteration of the `switch` in `evaluateFitness`: the position update for
one move, with the source's boundary clamping (`if (y > 0) y--;` etc.). -/
def moveStep (N : Int) (x y : Int) : Direction → Int × Int
  | .UP => (x, if y > 0 then y - 1 else y)
  | .DOWN => (x, if y < N - 1 then y + 1 else y)
  | .LEFT => (if x > 0 then x - 1 else x, y)
  | .RIGHT => (if x < N - 1 then x + 1 else x, y)
  | .STAND => (x, y)

/-- The `for (auto move : genome)` loop of `evaluateFitness`: apply each move,
and `break` as soon as the cell at the new position is a wall
(`if (maze[y][x] == 1) break;`).  Returns the final `(x, y)`. -/
def fitnessLoop (N : Int) (maze : Maze) (x y : Int) : Genome → Int × Int
  | [] => (x, y)
  | mv :: rest =>
    let p := moveStep N x y mv
    if cellAt maze p.2 p.1 = 1 then p
    else fitnessLoop N maze p.1 p.2 rest

/-- `int evaluateFitness(const Genome& genome, const Maze& maze)`:
run the walk from `(0,0)` and return `(MAZE_SIZE - y) + (MAZE_SIZE - x)`. -/
def evaluateFitness (N : Int) (genome : Genome) (maze : Maze) : Int :=
  (N - (fitnessLoop N maze 0 0 genome).2) + (N - (fitnessLoop N maze 0 0 genome).1)

/-- The sequence of positions at which `evaluateFitness` reads the maze
(`maze[y][x]`): one read per executed loop iteration, at the position reached
after that iteration's move, ending with the read that saw a wall. -/
def accessTrace (N : Int) (maze : Maze) (x y : Int) : Genome → List (Int × Int)
  | [] => []
  | mv :: rest =>
    let p := moveStep N x y mv
    if cellAt maze p.2 p.1 = 1 then [p]
    else p :: accessTrace N maze p.1 p.2 rest

/-- `Genome crossover(const Genome& parent1, const Genome& parent2)` starts
from `Genome child = parent1;` and runs
`std::copy(parent2.begin() + crossover_point, parent2.end(),
child.begin() + crossover_point)`.  `copyFrom dst src k` embeds that
`std::copy`: write the elements of `src` into `dst` starting at index `k`. -/
def copyFrom (dst : Genome) (src : List Direction) (k : Nat) : Genome :=
  match src with
  | [] => dst
  | m :: rest => copyFrom (dst.set k m) rest (k + 1)

/-- `crossover`, with the sampled `crossover_point` passed explicitly. -/
def crossover (parent1 parent2 : Genome) (crossoverPoint : Nat) : Genome :=
  copyFrom parent1 (parent2.drop crossoverPoint) crossoverPoint

/-- `void mutate(Genome& genome)`:
`genome[mutation_point] = static_cast<Direction>(disDir(gen));`, with the
sampled locus and replacement direction passed explicitly. -/
def mutate (genome : Genome) (mutationPoint : Nat) (d : Direction) : Genome :=
  genome.set mutationPoint d

/-- The per-generation fitness evaluation (lines 171-178 / 221-228 of
`main`): `fitness[i] = evaluateFitness(population[i], maze)` for every index,
i.e. the index-aligned FitnessTable of a population. -/
def fitnessTable (N : Int) (maze : Maze) (pop : List Genome) : List Int :=
  pop.map (fun g => evaluateFitness N g maze)

/-- The crossover-and-mutation loop of `main` (lines 203-208): for
`i = 0 .. P/2 - 1`, push `population[i]` and then the mutated child of
`population[i]` and `population[P/2 - i - 1]`.  `rnd i` supplies the random
draws used for child `i`: the crossover point, the mutation point and the
replacement direction. -/
def nextPopulation (pop : List Genome) (halfP : Nat)
    (rnd : Nat → Nat × Nat × Direction) : List Genome :=
  (List.range halfP).flatMap (fun i =>
    let r := rnd i
    let child := mutate (crossover (pop.getD i []) (pop.getD (halfP - i - 1) []) r.1)
      r.2.1 r.2.2
    [pop.getD i [], child])

/-- The comparator of the selection `std::partial_sort` (lines 190-193):
`fitness[&a - population.data()] < fitness[&b - population.data()]`.  The
pointer subtraction yields the element's CURRENT index in the population
array, so the comparator is a function of the two current positions `i`, `j`
only, not of the genomes stored there. -/
def selComp (fitness : List Int) (i j : Nat) : Bool :=
  decide (fitness.getD i 0 < fitness.getD j 0)

/-- `*std::min_element(fitness.begin(), fitness.end())` (line 231); the C++
call dereferences `end()` on an empty range, so the model is only meaningful
on a nonempty list. -/
def minElement : List Int → Int
  | [] => 0
  | v :: rest => rest.foldl min v

/-- The end-of-generation reporting of `main` (lines 218-232): the new
population is re-evaluated and `best_fitness` is the minimum of THAT table.
`selectedPop` is the population as left by the selection step. -/
def recordedBest (N : Int) (maze : Maze) (selectedPop : List Genome)
    (halfP : Nat) (rnd : Nat → Nat × Nat × Direction) : Int :=
  minElement (fitnessTable N maze (nextPopulation selectedPop halfP rnd))

/-- The queue-and-flag state of the `ThreadPool` class: the pending `tasks`
queue and the `stop` flag (tasks are identified by an abstract id). -/
structure ThreadPoolState where
  tasks : List Nat
  stop : Bool
deriving DecidableEq, Repr

/-- `ThreadPool::enqueue` (lines 78-88): lock, `tasks.emplace(...)`, notify,
return the future.  The `stop` flag is never consulted. -/
def ThreadPoolState.enqueue (s : ThreadPoolState) (t : Nat) : ThreadPoolState :=
  { s with tasks := s.tasks ++ [t] }

/-- The shutdown request of `ThreadPool::~ThreadPool` (lines 68-76): set
`stop = true` (then notify and join the workers). -/
def ThreadPoolState.shutdownRequest (s : ThreadPoolState) : ThreadPoolState :=
  { s with stop := true }

/-- Modelled from the spec (§4.3): the per-move position update as the spec
words it — tentatively move, clamping at the boundaries so that moves that
would leave the grid are no-ops. -/
def specMove (N : Int) (p : Int × Int) : Direction → Int × Int
  | .UP => (p.1, max (p.2 - 1) 0)
  | .DOWN => (p.1, min (p.2 + 1) (N - 1))
  | .LEFT => (max (p.1 - 1) 0, p.2)
  | .RIGHT => (min (p.1 + 1) (N - 1), p.2)
  | .STAND => p

/-- Modelled from the spec (§4.3): apply each move of the genome in order and
stop immediately when the cell at the position reached after a move is WALL. -/
def specWalk (N : Int) (maze : Maze) (p : Int × Int) : Genome → Int × Int
  | [] => p
  | mv :: rest =>
    let q := specMove N p mv
    if cellAt maze q.2 q.1 = 1 then q
    else specWalk N maze q rest

/-- Modelled from the spec (§4.3): `evaluate(genome, maze)` returns
`(N - finalY) + (N - finalX)` for the final position of the walk from
`(0,0)`. -/
def specEvaluate (N : Int) (genome : Genome) (maze : Maze) : Int :=
  (N - (specWalk N maze (0, 0) genome).2) + (N - (specWalk N maze (0, 0) genome).1)

/-- An all-OPEN square maze of dimension `n`, used as concrete test input. -/
def openMaze (n : Nat) : Maze :=
  List.replicate n (List.replicate n 0)

/-! ## Helper lemmas -/

theorem moveStep_bounds {N x y : Int} (d : Direction)
    (hx0 : 0 ≤ x) (hx : x ≤ N - 1) (hy0 : 0 ≤ y) (hy : y ≤ N - 1) :
    0 ≤ (moveStep N x y d).1 ∧ (moveStep N x y d).1 ≤ N - 1 ∧
    0 ≤ (moveStep N x y d).2 ∧ (moveStep N x y d).2 ≤ N - 1 := by
  cases d <;> dsimp only [moveStep] <;> (try split_ifs) <;> omega

theorem moveStep_eq_specMove {N x y : Int} (d : Direction)
    (hx0 : 0 ≤ x) (hx : x ≤ N - 1) (hy0 : 0 ≤ y) (hy : y ≤ N - 1) :
    moveStep N x y d = specMove N (x, y) d := by
  cases d <;> simp only [moveStep, specMove, Prod.mk.injEq] <;> (try split_ifs) <;>
    simp only [sup_eq_max, inf_eq_min, true_and, and_true] <;> (try omega)

theorem fitnessLoop_bounds {N : Int} (maze : Maze) (g : Genome) {x y : Int}
    (hx0 : 0 ≤ x) (hx : x ≤ N - 1) (hy0 : 0 ≤ y) (hy : y ≤ N - 1) :
    0 ≤ (fitnessLoop N maze x y g).1 ∧ (fitnessLoop N maze x y g).1 ≤ N - 1 ∧
    0 ≤ (fitnessLoop N maze x y g).2 ∧ (fitnessLoop N maze x y g).2 ≤ N - 1 := by
  induction g generalizing x y with
  | nil => exact ⟨hx0, hx, hy0, hy⟩
  | cons mv rest ih =>
    obtain ⟨h1, h2, h3, h4⟩ := moveStep_bounds (N := N) (x := x) (y := y) mv hx0 hx hy0 hy
    simp only [fitnessLoop]
    split
    · exact ⟨h1, h2, h3, h4⟩
    · exact ih h1 h2 h3 h4

theorem fitnessLoop_eq_specWalk {N : Int} (maze : Maze) (g : Genome) {x y : Int}
    (hx0 : 0 ≤ x) (hx : x ≤ N - 1) (hy0 : 0 ≤ y) (hy : y ≤ N - 1) :
    fitnessLoop N maze x y g = specWalk N maze (x, y) g := by
  induction g generalizing x y with
  | nil => rfl
  | cons mv rest ih =>
    obtain ⟨h1, h2, h3, h4⟩ := moveStep_bounds (N := N) (x := x) (y := y) mv hx0 hx hy0 hy
    have hms := moveStep_eq_specMove (N := N) (x := x) (y := y) mv hx0 hx hy0 hy
    simp only [fitnessLoop, specWalk, ← hms]
    split
    · rfl
    · exact ih h1 h2 h3 h4

theorem accessTrace_bounds {N : Int} (maze : Maze) (g : Genome) {x y : Int}
    (hx0 : 0 ≤ x) (hx : x ≤ N - 1) (hy0 : 0 ≤ y) (hy : y ≤ N - 1) :
    ∀ p ∈ accessTrace N maze x y g,
      0 ≤ p.1 ∧ p.1 ≤ N - 1 ∧ 0 ≤ p.2 ∧ p.2 ≤ N - 1 := by
  induction g generalizing x y with
  | nil => intro p hp; simp [accessTrace] at hp
  | cons mv rest ih =>
    intro p hp
    obtain ⟨h1, h2, h3, h4⟩ := moveStep_bounds (N := N) (x := x) (y := y) mv hx0 hx hy0 hy
    simp only [accessTrace] at hp
    split at hp
    · simp at hp; subst hp; exact ⟨h1, h2, h3, h4⟩
    · rcases List.mem_cons.mp hp with h | h
      · subst h; exact ⟨h1, h2, h3, h4⟩
      · exact ih h1 h2 h3 h4 p h

theorem copyFrom_eq_append (src : List Direction) (dst : Genome) (k : Nat)
    (h : dst.length = k + src.length) :
    copyFrom dst src k = dst.take k ++ src := by
  induction src generalizing dst k with
  | nil =>
    simp only [copyFrom, List.append_nil]
    rw [List.take_of_length_le (by simp at h; omega)]
  | cons m rest ih =>
    rw [copyFrom, ih (dst.set k m) (k + 1) (by simp at h ⊢; omega)]
    have hk : k < dst.length := by simp at h; omega
    have htk : ((dst.take k).length : Nat) = k := by simp; omega
    rw [List.take_succ, List.set_take, List.set_eq_of_length_le (by omega),
        List.getElem?_set_self (by simpa using hk)]
    simp

/-- C5: single-point crossover with split point `k` keeps the first `k` loci
of the first parent, takes the loci from `k` on from the second parent, and
returns a child of length exactly L. -/
theorem crossover_single_point (L : Nat) (p1 p2 : Genome) (k : Nat)
    (h1 : p1.length = L) (h2 : p2.length = L) (hk : k ≤ L - 1) (hL : 0 < L) :
    (crossover p1 p2 k).length = L ∧
    (∀ i, i < k → (crossover p1 p2 k).getD i .STAND = p1.getD i .STAND) ∧
    (∀ i, k ≤ i → i < L → (crossover p1 p2 k).getD i .STAND = p2.getD i .STAND) := by
  have hc : crossover p1 p2 k = p1.take k ++ p2.drop k :=
    copyFrom_eq_append (p2.drop k) p1 k (by simp; omega)
  have htk : (p1.take k).length = k := by simp; omega
  refine ⟨?_, ?_, ?_⟩
  · rw [hc]; simp; omega
  · intro i hi
    rw [hc, List.getD_eq_getElem?_getD, List.getD_eq_getElem?_getD,
        List.getElem?_append_left (by omega), List.getElem?_take_of_lt hi]
  · intro i hki hiL
    rw [hc, List.getD_eq_getElem?_getD, List.getD_eq_getElem?_getD,
        List.getElem?_append_right (by omega), htk, List.getElem?_drop,
        Nat.add_sub_cancel' hki]

/-- Witness for C5: L = 4, parents `[UP,UP,UP,UP]` and `[DOWN,DOWN,DOWN,DOWN]`,
split point 2 (the spec's scenario 3). -/
theorem crossover_single_point_witness :
    (([Direction.UP, .UP, .UP, .UP] : Genome).length = 4 ∧
     ([Direction.DOWN, .DOWN, .DOWN, .DOWN] : Genome).length = 4 ∧
     2 ≤ 4 - 1 ∧ 0 < 4) ∧
    ((crossover [.UP, .UP, .UP, .UP] [.DOWN, .DOWN, .DOWN, .DOWN] 2).length = 4 ∧
     (∀ i, i < 2 →
       (crossover [.UP, .UP, .UP, .UP] [.DOWN, .DOWN, .DOWN, .DOWN] 2).getD i .STAND =
         ([Direction.UP, .UP, .UP, .UP] : Genome).getD i .STAND) ∧
     (∀ i, 2 ≤ i → i < 4 →
       (crossover [.UP, .UP, .UP, .UP] [.DOWN, .DOWN, .DOWN, .DOWN] 2).getD i .STAND =
         ([Direction.DOWN, .DOWN, .DOWN, .DOWN] : Genome).getD i .STAND)) :=
  ⟨⟨by decide, by decide, by decide, by decide⟩,
   crossover_single_point 4 [.UP, .UP, .UP, .UP] [.DOWN, .DOWN, .DOWN, .DOWN] 2
     (by decide) (by decide) (by decide) (by decide)⟩

/-- C4 (counterexample): the claim "the output is never identical to the
input" fails — when the freshly sampled direction equals the one already at
the mutation point, `mutate` returns the genome unchanged: zero loci differ. -/
theorem mutate_identity_counterexample :
    mutate [Direction.STAND] 0 Direction.STAND = [Direction.STAND] ∧
    0 < ([Direction.STAND] : Genome).length := by
  decide

/-- C4 (amended): `mutate` changes at most the chosen locus: the length is
preserved, the chosen locus ends up holding the sampled direction (a value of
the five-element `Direction` alphabet), and every other locus is unchanged;
the output equals the input exactly when the sampled direction equals the
value already stored there. -/
theorem mutate_changes_at_most_chosen_locus (g : Genome) (p : Nat) (d : Direction)
    (hp : p < g.length) :
    (mutate g p d).length = g.length ∧
    (mutate g p d).getD p .STAND = d ∧
    ∀ i, i ≠ p → (mutate g p d).getD i .STAND = g.getD i .STAND := by
  refine ⟨List.length_set g p d, ?_, ?_⟩
  · rw [mutate, List.getD_eq_getElem?_getD, List.getElem?_set_self hp]
    rfl
  · intro i hi
    rw [mutate, List.getD_eq_getElem?_getD, List.getD_eq_getElem?_getD,
        List.getElem?_set_ne (Ne.symm hi)]

/-- Witness for C4 (amended): mutating `[UP, UP]` at locus 1 to `DOWN`. -/
theorem mutate_changes_at_most_chosen_locus_witness :
    1 < ([Direction.UP, .UP] : Genome).length ∧
    ((mutate [Direction.UP, .UP] 1 .DOWN).length = ([Direction.UP, .UP] : Genome).length ∧
     (mutate [Direction.UP, .UP] 1 .DOWN).getD 1 .STAND = .DOWN ∧
     ∀ i, i ≠ 1 →
       (mutate [Direction.UP, .UP] 1 .DOWN).getD i .STAND =
         ([Direction.UP, .UP] : Genome).getD i .STAND) :=
  ⟨by decide, mutate_changes_at_most_chosen_locus [.UP, .UP] 1 .DOWN (by decide)⟩

theorem length_flatMap_pair {α β : Type} (l : List α) (f g : α → β) :
    (l.flatMap (fun a => [f a, g a])).length = 2 * l.length := by
  induction l with
  | nil => rfl
  | cons a t ih => simp_all [List.flatMap_cons]; omega

/-- C6: the next-generation assembly applied to a size-P population (P even)
yields a population of size exactly P, and the FitnessTable computed for any
size-P population has length exactly P. -/
theorem population_size_preserved (P : Nat) (pop : List Genome)
    (rnd : Nat → Nat × Nat × Direction) (N : Int) (maze : Maze)
    (hP : 2 ∣ P) (hpop : pop.length = P) :
    (nextPopulation pop (P / 2) rnd).length = P ∧
    (fitnessTable N maze (nextPopulation pop (P / 2) rnd)).length = P ∧
    (fitnessTable N maze pop).length = P := by
  have hlen : (nextPopulation pop (P / 2) rnd).length = P := by
    rw [nextPopulation, length_flatMap_pair]
    simp
    omega
  exact ⟨hlen, by simp [fitnessTable, hlen], by simp [fitnessTable, hpop]⟩

/-- Witness for C6: P = 2, a two-genome population. -/
theorem population_size_preserved_witness :
    (2 ∣ 2 ∧ ([[Direction.UP], [Direction.DOWN]] : List Genome).length = 2) ∧
    ((nextPopulation [[Direction.UP], [Direction.DOWN]] (2 / 2) (fun _ => (0, 0, .STAND))).length = 2 ∧
     (fitnessTable 4 (openMaze 4)
       (nextPopulation [[Direction.UP], [Direction.DOWN]] (2 / 2) (fun _ => (0, 0, .STAND)))).length = 2 ∧
     (fitnessTable 4 (openMaze 4) [[Direction.UP], [Direction.DOWN]]).length = 2) :=
  ⟨⟨by decide, by decide⟩,
   population_size_preserved 2 [[.UP], [.DOWN]] (fun _ => (0, 0, .STAND)) 4 (openMaze 4)
     (by decide) (by decide)⟩

/-! ## Claims about evaluation -/

/-- C1: for every genome and every N×N maze, `evaluateFitness` simulates a
walk from `(0,0)` applying each move in order with boundary clamping, stops
immediately when the cell reached after a move is WALL, and returns exactly
`(N - finalY) + (N - finalX)` — i.e. it coincides with the walk described by
the spec (`specEvaluate`). -/
theorem evaluateFitness_refines_spec (N : Int) (genome : Genome) (maze : Maze)
    (hN : 0 < N) :
    evaluateFitness N genome maze = specEvaluate N genome maze := by
  unfold evaluateFitness specEvaluate
  rw [fitnessLoop_eq_specWalk maze genome le_rfl (by omega) le_rfl (by omega)]

/-- Witness for C1, on the spec's own example: N = 4 all-OPEN maze, genome
`[RIGHT, RIGHT, DOWN, DOWN]`, which ends at `(2,2)` with cost 4. -/
theorem evaluateFitness_refines_spec_witness :
    (0 : Int) < 4 ∧
    evaluateFitness 4 [.RIGHT, .RIGHT, .DOWN, .DOWN] (openMaze 4) =
      specEvaluate 4 [.RIGHT, .RIGHT, .DOWN, .DOWN] (openMaze 4) ∧
    evaluateFitness 4 [.RIGHT, .RIGHT, .DOWN, .DOWN] (openMaze 4) = 4 :=
  ⟨by decide,
   evaluateFitness_refines_spec 4 [.RIGHT, .RIGHT, .DOWN, .DOWN] (openMaze 4) (by decide),
   by decide⟩

/-- C3 (code bug): a genome that walks exactly to the target corner
`(N-1, N-1)` of an all-OPEN 4×4 maze is assigned cost 2, not 0 — the formula
`(N - y) + (N - x)` measures the distance to `(N, N)`, so the claimed
"returns 0 iff the final position is the target" fails at this input. -/
theorem evaluateFitness_at_target_eq_two :
    fitnessLoop 4 (openMaze 4) 0 0
      [.RIGHT, .RIGHT, .RIGHT, .DOWN, .DOWN, .DOWN] = (3, 3) ∧
    evaluateFitness 4 [.RIGHT, .RIGHT, .RIGHT, .DOWN, .DOWN, .DOWN] (openMaze 4) = 2 := by
  decide

/-- C8: during fitness evaluation every maze read happens at a position with
`0 ≤ x < N` and `0 ≤ y < N`: the clamped walk never leaves the grid, so an
out-of-range access cannot occur in `evaluateFitness`. -/
theorem evaluateFitness_accesses_in_bounds (N : Int) (genome : Genome) (maze : Maze)
    (hN : 0 < N) :
    ∀ p ∈ accessTrace N maze 0 0 genome,
      0 ≤ p.1 ∧ p.1 < N ∧ 0 ≤ p.2 ∧ p.2 < N := by
  intro p hp
  obtain ⟨h1, h2, h3, h4⟩ :=
    accessTrace_bounds (N := N) maze genome le_rfl (by omega) le_rfl (by omega) p hp
  exact ⟨h1, by omega, h3, by omega⟩

/-- Witness for C8 at N = 4, genome `[RIGHT, DOWN, UP, LEFT, STAND]`. -/
theorem evaluateFitness_accesses_in_bounds_witness :
    (0 : Int) < 4 ∧
    ∀ p ∈ accessTrace 4 (openMaze 4) 0 0 [.RIGHT, .DOWN, .UP, .LEFT, .STAND],
      0 ≤ p.1 ∧ p.1 < 4 ∧ 0 ≤ p.2 ∧ p.2 < 4 :=
  ⟨by decide,
   evaluateFitness_accesses_in_bounds 4 [.RIGHT, .DOWN, .UP, .LEFT, .STAND]
     (openMaze 4) (by decide)⟩

/-- C10: for every genome and every N×N maze with N ≥ 1, the fitness value is
at least 2: the final position satisfies `x ≤ N-1` and `y ≤ N-1`, so
`(N - y) + (N - x) ≥ 2`; in particular the value 0 is unattainable. -/
theorem evaluateFitness_ge_two (N : Int) (genome : Genome) (maze : Maze)
    (hN : 0 < N) :
    2 ≤ evaluateFitness N genome maze := by
  obtain ⟨h1, h2, h3, h4⟩ :=
    fitnessLoop_bounds (N := N) maze genome (x := 0) (y := 0)
      le_rfl (by omega) le_rfl (by omega)
  unfold evaluateFitness
  omega

/-- Witness for C10 at N = 20 (the program's `MAZE_SIZE`) with the empty
genome: the cost is 40 ≥ 2. -/
theorem evaluateFitness_ge_two_witness :
    (0 : Int) < 20 ∧ 2 ≤ evaluateFitness 20 [] (openMaze 20) :=
  ⟨by decide, evaluateFitness_ge_two 20 [] (openMaze 20) (by decide)⟩

/-! ## Claims about selection, reporting and the worker pool -/

/-- C2 (code bug): the selection comparator reads fitness through the
genome's CURRENT position in the population array
(`fitness[&a - population.data()]`).  Concretely: for the population
`[gA, gB]` with `gA = [STAND]` (fitness 8) and `gB = [RIGHT, DOWN]`
(fitness 6) on an all-OPEN 4×4 maze, once a sort step has swapped the two
elements the comparator judges `gA < gB` (`selComp table 1 0 = true`) even
though `gA`'s actual fitness is larger — the genome-fitness association the
claim requires is not preserved. -/
theorem selection_comparator_misassociation :
    fitnessTable 4 (openMaze 4) [[Direction.STAND], [Direction.RIGHT, Direction.DOWN]] = [8, 6] ∧
    selComp (fitnessTable 4 (openMaze 4)
      [[Direction.STAND], [Direction.RIGHT, Direction.DOWN]]) 1 0 = true ∧
    evaluateFitness 4 [Direction.STAND] (openMaze 4) >
      evaluateFitness 4 [Direction.RIGHT, Direction.DOWN] (openMaze 4) := by
  decide

/-- C7 (code bug): `ThreadPool::enqueue` never consults the `stop` flag: after
a shutdown request it still appends the task to the queue and reports no
error, instead of failing with PoolClosedError as the claim requires. -/
theorem enqueue_after_shutdown_still_enqueues :
    (ThreadPoolState.shutdownRequest ⟨[], false⟩).stop = true ∧
    ThreadPoolState.enqueue (ThreadPoolState.shutdownRequest ⟨[], false⟩) 7 =
      ⟨[7], true⟩ :=
  ⟨rfl, rfl⟩

theorem minElement_mem_and_le (v : Int) (rest : List Int) :
    minElement (v :: rest) ∈ v :: rest ∧
    ∀ w ∈ v :: rest, minElement (v :: rest) ≤ w := by
  induction rest generalizing v with
  | nil =>
    refine ⟨by simp [minElement], ?_⟩
    intro w hw
    simp only [List.mem_singleton] at hw
    subst hw
    simp [minElement]
  | cons w rs ih =>
    have hstep : minElement (v :: w :: rs) = minElement (min v w :: rs) := rfl
    obtain ⟨hmem, hle⟩ := ih (min v w)
    constructor
    · rw [hstep]
      rcases List.mem_cons.mp hmem with h | h
      · rw [h]
        rcases le_total v w with hvw | hwv
        · rw [min_eq_left hvw]; exact List.mem_cons_self _ _
        · rw [min_eq_right hwv]
          exact List.mem_cons_of_mem _ (List.mem_cons_self _ _)
      · exact List.mem_cons_of_mem _ (List.mem_cons_of_mem _ h)
    · intro u hu
      rw [hstep]
      have hmin : minElement (min v w :: rs) ≤ min v w :=
        hle _ (List.mem_cons_self _ _)
      rcases List.mem_cons.mp hu with h | h
      · subst h; exact le_trans hmin (min_le_left _ _)
      · rcases List.mem_cons.mp h with h2 | h2
        · subst h2; exact le_trans hmin (min_le_right _ _)
        · exact hle u (List.mem_cons_of_mem _ h2)

/-- C9 (counterexample): with the two-genome population `[[STAND], [STAND]]`
on an all-OPEN 4×4 maze (its FitnessTable is `[8, 8]`, minimum 8; selection
leaves this population unchanged since both genomes are equal) and the random
draws mutating the child's locus 0 to `DOWN`, the driver's recorded best is
7 — the minimum of the re-evaluated table of the NEW population — not the
minimum 8 of the table of the population that was evaluated and selected. -/
theorem recordedBest_not_min_of_evaluated_table :
    recordedBest 4 (openMaze 4) [[Direction.STAND], [Direction.STAND]] 1
      (fun _ => (0, 0, .DOWN)) = 7 ∧
    minElement (fitnessTable 4 (openMaze 4)
      [[Direction.STAND], [Direction.STAND]]) = 8 := by
  decide

/-- C9 (amended): each generation, the value the driver records is the
minimum of the re-evaluated FitnessTable of the newly assembled population:
it is an entry of that table and is ≤ every entry of it. -/
theorem recordedBest_is_min_of_new_table (N : Int) (maze : Maze)
    (selectedPop : List Genome) (halfP : Nat)
    (rnd : Nat → Nat × Nat × Direction) (h : 0 < halfP) :
    recordedBest N maze selectedPop halfP rnd ∈
      fitnessTable N maze (nextPopulation selectedPop halfP rnd) ∧
    ∀ v ∈ fitnessTable N maze (nextPopulation selectedPop halfP rnd),
      recordedBest N maze selectedPop halfP rnd ≤ v := by
  have hlen : (fitnessTable N maze (nextPopulation selectedPop halfP rnd)).length =
      2 * halfP := by
    rw [fitnessTable, List.length_map, nextPopulation, length_flatMap_pair]
    simp
  rcases hft : fitnessTable N maze (nextPopulation selectedPop halfP rnd) with
    _ | ⟨v, rest⟩
  · rw [hft] at hlen
    simp at hlen
    omega
  · rw [recordedBest, hft]
    exact minElement_mem_and_le v rest

/-- Witness for C9 (amended): the concrete generation of the counterexample. -/
theorem recordedBest_is_min_of_new_table_witness :
    0 < 1 ∧
    (recordedBest 4 (openMaze 4) [[Direction.STAND], [Direction.STAND]] 1
       (fun _ => (0, 0, .DOWN)) ∈
       fitnessTable 4 (openMaze 4)
         (nextPopulation [[Direction.STAND], [Direction.STAND]] 1
           (fun _ => (0, 0, .DOWN))) ∧
     ∀ v ∈ fitnessTable 4 (openMaze 4)
         (nextPopulation [[Direction.STAND], [Direction.STAND]] 1
           (fun _ => (0, 0, .DOWN))),
       recordedBest 4 (openMaze 4) [[Direction.STAND], [Direction.STAND]] 1
         (fun _ => (0, 0, .DOWN)) ≤ v) :=
  ⟨by decide,
   recordedBest_is_min_of_new_table 4 (openMaze 4)
     [[Direction.STAND], [Direction.STAND]] 1 (fun _ => (0, 0, .DOWN)) (by decide)⟩
